import Mathlib

/-!
Shallow embedding of the authentication / membership core of the
multitenant SaaS starter repository.

Conventions of the embedding:
- UUIDs and datetimes are modelled as `Nat` (only equality, freshness and
  order comparisons are used by the code under verification).
- A SQL table is a `List` of records; the audit and soft-delete mixin
  columns that the verified code reads or writes are inlined as fields.
- A Python service method that can raise becomes a function into
  `Except e a`; an error value means the method raised before performing
  any repository write (which is how the translated methods behave), so
  the caller observes an unchanged store.
- `session.commit` boundaries in multi-commit flows are modelled by
  returning the committed store alongside the result.
-/

namespace SaasCore

/-- Decidable equality on Except values, for evaluating the translated
fallible operations on concrete inputs. -/
instance {ε α : Type} [DecidableEq ε] [DecidableEq α] :
    DecidableEq (Except ε α) := fun x y =>
  match x, y with
  | .ok a, .ok b =>
      if h : a = b then .isTrue (by rw [h])
      else .isFalse (by intro hc; cases hc; exact h rfl)
  | .error a, .error b =>
      if h : a = b then .isTrue (by rw [h])
      else .isFalse (by intro hc; cases hc; exact h rfl)
  | .ok _, .error _ => .isFalse (by intro hc; cases hc)
  | .error _, .ok _ => .isFalse (by intro hc; cases hc)

/-- Role enum for memberships (memberships/models.py, MembershipRole). -/
inductive MembershipRole
  | OWNER
  | EDITOR
  | VIEWER
deriving DecidableEq

/-- Status enum for memberships (memberships/models.py, MembershipStatus). -/
inductive MembershipStatus
  | INVITED
  | ACTIVE
deriving DecidableEq

/-- A row of the org.memberships table: MembershipBase fields plus the
audit / soft-delete mixin columns that the membership services read or
write (memberships/models.py, Membership). -/
structure Membership where
  id : Nat
  organization_id : Nat
  user_id : Nat
  role : MembershipRole
  status : MembershipStatus
  invited_by : Option Nat := none
  invited_at : Option Nat := none
  accepted_at : Option Nat := none
  updated_by : Option Nat := none
  deleted_at : Option Nat := none
  deleted_by : Option Nat := none
deriving DecidableEq

/-- Membership.is_owner property. -/
def Membership.is_owner (m : Membership) : Bool :=
  m.role == .OWNER

/-- Membership.is_active property. -/
def Membership.is_active (m : Membership) : Bool :=
  m.status == .ACTIVE

/-- Membership.is_invited property. -/
def Membership.is_invited (m : Membership) : Bool :=
  m.status == .INVITED

/-- Membership.can_write property. -/
def Membership.can_write (m : Membership) : Bool :=
  m.role == .OWNER || m.role == .EDITOR

/-- Membership.can_manage_users property. -/
def Membership.can_manage_users (m : Membership) : Bool :=
  m.role == .OWNER

/-- Schema for creating memberships (memberships/schemas.py,
MembershipCreate); the service overrides status / invited_by /
invited_at, so only the pass-through fields appear here. -/
structure MembershipCreate where
  organization_id : Nat
  user_id : Nat
  role : MembershipRole := .VIEWER
deriving DecidableEq

/-- Schema for updating memberships (memberships/schemas.py,
MembershipUpdate).  `none` models a field that was not set, matching
the exclude_unset=True dump in CRUDBase.update. -/
structure MembershipUpdate where
  role : Option MembershipRole := none
  status : Option MembershipStatus := none
  accepted_at : Option Nat := none
deriving DecidableEq

/-- Errors raised by the membership service (memberships/exceptions.py). -/
inductive MembershipError
  | userAlreadyMember
  | userAlreadyInvited
  | insufficientPermissions
  | invitationNotFound
  | invitationAlreadyAccepted
  | membershipNotFound
  | lastOwnerRemoval
  | notOrganizationMember
deriving DecidableEq

/-- MembershipRepository.get_by_organization_and_user: first non-deleted
row matching the (organization, user) pair. -/
def get_by_organization_and_user (db : List Membership)
    (organization_id user_id : Nat) : Option Membership :=
  db.find? fun m =>
    m.organization_id == organization_id && m.user_id == user_id
      && m.deleted_at == none

/-- The conjunction of where-clauses built by
MembershipRepository.get_memberships for one organization with the
optional status and role filters. -/
def membershipFilter (organization_id : Nat)
    (status : Option MembershipStatus) (role : Option MembershipRole)
    (m : Membership) : Bool :=
  m.organization_id == organization_id && m.deleted_at == none
    && (match status with | some s => m.status == s | none => true)
    && (match role with | some r => m.role == r | none => true)

/-- MembershipRepository.get_memberships with offset/limit pagination. -/
def get_memberships (db : List Membership) (organization_id : Nat)
    (status : Option MembershipStatus) (role : Option MembershipRole)
    (skip limit : Nat) : List Membership :=
  (((db.filter (membershipFilter organization_id status role)).drop skip).take limit)

/-- MembershipRepository.get_organization_owners: active owners of the
organization, fetched through get_memberships with its default
pagination (skip=0, limit=100). -/
def get_organization_owners (db : List Membership)
    (organization_id : Nat) : List Membership :=
  get_memberships db organization_id (some .ACTIVE) (some .OWNER) 0 100

/-- CRUDBase.get for memberships: lookup by primary key, hiding
soft-deleted rows. -/
def crud_get (db : List Membership) (id : Nat) : Option Membership :=
  db.find? fun m => m.id == id && m.deleted_at == none

/-- CRUDBase.update applied to a Membership with a MembershipUpdate:
only the fields that were set are written, then set_audit_fields stamps
updated_by. -/
def applyUpdate (m : Membership) (u : MembershipUpdate)
    (updated_by_id : Nat) : Membership :=
  { m with
    role := u.role.getD m.role
    status := u.status.getD m.status
    accepted_at := match u.accepted_at with
      | some t => some t
      | none => m.accepted_at
    updated_by := some updated_by_id }

/-- CRUDBase.update commit: the fetched row (identified by its primary
key) is replaced by the updated object in the table. -/
def repoUpdate (db : List Membership) (m : Membership)
    (u : MembershipUpdate) (updated_by_id : Nat) :
    Membership × List Membership :=
  let m' := applyUpdate m u updated_by_id
  (m', db.map fun x => if x.id == m.id then m' else x)

/-- SoftDeleteMixin.soft_delete. -/
def softDelete (m : Membership) (now deleted_by_id : Nat) : Membership :=
  { m with deleted_at := some now, deleted_by := some deleted_by_id }

/-- CRUDBase.remove for memberships: re-fetch by id (soft-deleted rows
are invisible), then soft delete and commit. -/
def repoRemove (db : List Membership) (id : Nat)
    (deleted_by_id now : Nat) : Bool × List Membership :=
  match crud_get db id with
  | none => (false, db)
  | some m =>
      (true, db.map fun x =>
        if x.id == m.id then softDelete x now deleted_by_id else x)

/-- The shape shared by the commit of CRUDBase.update and CRUDBase.remove
on the memberships table: the rows whose primary key matches are
rewritten by `g`. -/
def mapById (db : List Membership) (i : Nat)
    (g : Membership → Membership) : List Membership :=
  db.map fun x => if x.id == i then g x else x

/-- MembershipService.create_membership.  `newId` models the uuid4
default for the new primary key, `now` the datetime.utcnow() stamp. -/
def create_membership (db : List Membership)
    (membership_in : MembershipCreate) (invited_by_id : Nat)
    (now newId : Nat) :
    Except MembershipError (Membership × List Membership) :=
  match get_by_organization_and_user db membership_in.organization_id
      membership_in.user_id with
  | some existing =>
      if existing.status == .ACTIVE then .error .userAlreadyMember
      else .error .userAlreadyInvited
  | none =>
      match get_by_organization_and_user db membership_in.organization_id
          invited_by_id with
      | none => .error .insufficientPermissions
      | some inviter =>
          if inviter.can_manage_users then
            let m : Membership :=
              { id := newId
                organization_id := membership_in.organization_id
                user_id := membership_in.user_id
                role := membership_in.role
                status := .INVITED
                invited_by := some invited_by_id
                invited_at := some now }
            .ok (m, db ++ [m])
          else .error .insufficientPermissions

/-- MembershipService.update_membership: applies an arbitrary
MembershipUpdate to the given row through CRUDBase.update. -/
def update_membership (db : List Membership) (membership : Membership)
    (membership_in : MembershipUpdate) (updated_by_id : Nat) :
    Membership × List Membership :=
  repoUpdate db membership membership_in updated_by_id

/-- MembershipService.accept_invitation. -/
def accept_invitation (db : List Membership)
    (organization_id user_id now : Nat) :
    Except MembershipError (Membership × List Membership) :=
  match get_by_organization_and_user db organization_id user_id with
  | none => .error .invitationNotFound
  | some membership =>
      if membership.status == .ACTIVE then .error .invitationAlreadyAccepted
      else
        .ok (repoUpdate db membership
          { status := some .ACTIVE, accepted_at := some now } user_id)

/-- MembershipService.update_user_role. -/
def update_user_role (db : List Membership)
    (organization_id user_id : Nat) (new_role : MembershipRole)
    (updated_by_id : Nat) :
    Except MembershipError (Membership × List Membership) :=
  match get_by_organization_and_user db organization_id user_id with
  | none => .error .membershipNotFound
  | some membership =>
      match get_by_organization_and_user db organization_id updated_by_id with
      | none => .error .insufficientPermissions
      | some updater =>
          if !updater.can_manage_users then .error .insufficientPermissions
          else if membership.role == .OWNER && new_role != .OWNER
              && (get_organization_owners db organization_id).length ≤ 1 then
            .error .lastOwnerRemoval
          else
            .ok (repoUpdate db membership { role := some new_role } updated_by_id)

/-- MembershipService.remove_user_from_organization. -/
def remove_user_from_organization (db : List Membership)
    (organization_id user_id removed_by_id now : Nat) :
    Except MembershipError (Bool × List Membership) :=
  match get_by_organization_and_user db organization_id user_id with
  | none => .error .membershipNotFound
  | some membership =>
      let remover := get_by_organization_and_user db organization_id removed_by_id
      if user_id != removed_by_id && !(remover.any Membership.can_manage_users) then
        .error .insufficientPermissions
      else if membership.role == .OWNER
          && (get_organization_owners db organization_id).length ≤ 1 then
        .error .lastOwnerRemoval
      else
        .ok (repoRemove db membership.id removed_by_id now)

/-- Number of non-deleted ACTIVE memberships with role OWNER of one
organization: the quantity the last-owner invariant bounds. -/
def activeOwnerCount (db : List Membership) (organization_id : Nat) : Nat :=
  db.countP (membershipFilter organization_id (some .ACTIVE) (some .OWNER))

/-- The sequences of membership-engine calls quantified over by the
last-owner invariant. -/
inductive MemOp
  | updateRole (organization_id user_id : Nat) (new_role : MembershipRole)
      (updated_by_id : Nat)
  | removeUser (organization_id user_id removed_by_id now : Nat)
deriving DecidableEq

/-- Committed state after one membership-engine call; a raised domain
error leaves the table unchanged. -/
def applyMemOp (db : List Membership) : MemOp → List Membership
  | .updateRole o u r b =>
      match update_user_role db o u r b with
      | .ok (_, db') => db'
      | .error _ => db
  | .removeUser o u b now =>
      match remove_user_from_organization db o u b now with
      | .ok (_, db') => db'
      | .error _ => db

/-- Committed state after a sequence of membership-engine calls. -/
def applyMemOps (db : List Membership) : List MemOp → List Membership
  | [] => db
  | op :: ops => applyMemOps (applyMemOp db op) ops

/-- Failure kinds observable from the auth orchestrator
(auth/exceptions.py plus the built-in Python errors the translated code
can raise).  `typeError` models the TypeError raised when
SessionNotFoundError, whose init accepts no message argument, is
constructed with one. -/
inductive PyError
  | sessionNotFound
  | typeError
  | orgAccessDenied
  | providerError
  | dbError
deriving DecidableEq

/-- SessionData container (auth/service.py). -/
structure SessionData where
  user_id : Nat
  provider_user_id : String
  organization_id : Option Nat := none
  access_token : String
  refresh_token : String
  expires_at : Nat
deriving DecidableEq

/-- The in-memory AuthService session dict, keyed by access token. -/
def SessionStore := List (String × SessionData)
deriving DecidableEq

/-- Dict lookup self._sessions.get(access_token). -/
def storeGet (store : SessionStore) (access_token : String) :
    Option SessionData :=
  (List.find? (fun e => e.1 == access_token) store).map (fun e => e.2)

/-- Dict deletion del self._sessions[access_token]. -/
def storeDel (store : SessionStore) (access_token : String) :
    SessionStore :=
  List.filter (fun e => e.1 != access_token) store

/-- AuthService.validate_session.  `providerAccepts` models whether
provider.validate_token returns (true) or raises (false).  Both the
expiry branch and the provider-rejection branch construct
SessionNotFoundError with a message, which its no-argument init cannot
accept, so those branches actually fail with a TypeError after deleting
the session. -/
def validate_session (store : SessionStore)
    (providerAccepts : String → Bool) (now : Nat)
    (access_token : String) : Except PyError SessionData × SessionStore :=
  match storeGet store access_token with
  | none => (.error .sessionNotFound, store)
  | some session_data =>
      if session_data.expires_at < now then
        (.error .typeError, storeDel store access_token)
      else if providerAccepts access_token then
        (.ok session_data, store)
      else
        (.error .typeError, storeDel store access_token)

/-- AuthService.logout.  `providerLogoutOk` models whether
provider.logout returns (true) or raises (false); a raise propagates
out of logout before the local session dict is touched. -/
def logout (store : SessionStore) (providerLogoutOk : Bool)
    (access_token : String) : Except PyError Bool × SessionStore :=
  match storeGet store access_token with
  | none => (.ok false, store)
  | some _ =>
      if providerLogoutOk then (.ok true, storeDel store access_token)
      else (.error .providerError, store)

/-- The User rows read by the auth orchestrator (users/models.py,
restricted to the fields the translated methods touch). -/
structure UserRec where
  id : Nat
  email : String
  is_superuser : Bool := false
  provider_user_id : Option String := none
  deleted_at : Option Nat := none
deriving DecidableEq

/-- AuthService._validate_organization_access.  Faithful to the source:
the membership query filters on user, organization and ACTIVE status
but, unlike every MembershipRepository query, does not exclude
soft-deleted rows. -/
def validate_organization_access (users : List UserRec)
    (memberships : List Membership) (user_id organization_id : Nat) :
    Except PyError Unit :=
  let user := users.find? fun u => u.id == user_id
  if (user.map (fun u => u.is_superuser)).getD false then .ok ()
  else
    match memberships.find? (fun m =>
        m.user_id == user_id && m.organization_id == organization_id
          && m.status == .ACTIVE) with
    | some _ => .ok ()
    | none => .error .orgAccessDenied

/-- AuthService.send_password_reset.  The user lookup and the provider
call are modelled by their outcomes; the whole body runs under a
try/except that returns True on any exception, and the provider result
is discarded. -/
def send_password_reset (lookupUser : Except PyError (Option Nat))
    (providerSend : Except PyError Bool) : Bool :=
  match (do
      let u ← lookupUser
      match u with
      | some _ => do
          let _ ← providerSend
          pure true
      | none => pure true : Except PyError Bool) with
  | .ok b => b
  | .error _ => true

/-- Errors raised by an identity provider implementation;
`notConfigured` models NotImplementedError with the message that no
authentication provider is configured. -/
inductive ProviderError
  | notConfigured
  | providerFailure
deriving DecidableEq

/-- Token pair returned by a provider (core/auth/models.py TokenPair,
restricted to the fields the orchestrator reads). -/
structure TokenPair where
  access_token : String
  refresh_token : String
  expires_at : Nat
deriving DecidableEq

/-- Provider-side user record (core/auth/models.py AuthUser, restricted
to the fields the orchestrator reads). -/
structure AuthUser where
  provider_user_id : String
  email : String
deriving DecidableEq

/-- Provider authentication result: user plus tokens. -/
structure AuthResult where
  user : AuthUser
  tokens : TokenPair
deriving DecidableEq

/-- The capability set of an identity provider
(core/auth/protocols.py, AuthProvider protocol).  Dict-typed payloads
(user_data, claims) are modelled as association lists. -/
structure AuthProviderOps where
  authenticate : String → String → Except ProviderError AuthResult
  validate_token : String → Except ProviderError (List (String × String))
  refresh_token : String → Except ProviderError TokenPair
  create_user : String → String → List (String × String) →
    Except ProviderError AuthUser
  get_user_by_id : String → Except ProviderError (Option AuthUser)
  get_user_by_email : String → Except ProviderError (Option AuthUser)
  update_user : String → List (String × String) →
    Except ProviderError AuthUser
  delete_user : String → Except ProviderError Bool
  logout : String → Option String → Except ProviderError Bool

/-- AuthProviderStub (core/auth/protocols.py): every operation raises
NotImplementedError saying no authentication provider is configured. -/
def AuthProviderStub : AuthProviderOps where
  authenticate := fun _ _ => .error .notConfigured
  validate_token := fun _ => .error .notConfigured
  refresh_token := fun _ => .error .notConfigured
  create_user := fun _ _ _ => .error .notConfigured
  get_user_by_id := fun _ => .error .notConfigured
  get_user_by_email := fun _ => .error .notConfigured
  update_user := fun _ _ => .error .notConfigured
  delete_user := fun _ => .error .notConfigured
  logout := fun _ _ => .error .notConfigured

/-- AuthProviderRegistry.create_provider: the registry maps provider
names to factories over a config; an unregistered name yields the stub
provider. -/
def create_provider (registry : List (String × (Nat → AuthProviderOps)))
    (provider_name : String) (config : Nat) : AuthProviderOps :=
  match registry.find? (fun e => e.1 == provider_name) with
  | none => AuthProviderStub
  | some e => e.2 config

/-- Decimal rendering of a natural number, the Lean counterpart of the
Python str(int) used when formatting slug candidates. -/
def natToStr (n : Nat) : String :=
  if n = 0 then "0"
  else ((Nat.digits 10 n).reverse.map Nat.digitChar).asString

/-- One slug candidate of the collision loop in
AuthService.create_user_with_organization. -/
def slugCandidate (base : String) (k : Nat) : String :=
  base ++ "-" ++ natToStr k

/-- The while loop that appends -1, -2, ... until the candidate slug is
free.  The fuel argument only bounds the recursion; resolveSlug always
supplies enough fuel for a free candidate to exist, so the fuel-zero
fallback is unreachable and the function returns exactly the first free
candidate, as the source loop does. -/
def resolveSlugAux (taken : List String) (base : String) :
    Nat → Nat → String
  | counter, 0 => slugCandidate base counter
  | counter, fuel + 1 =>
      if taken.contains (slugCandidate base counter) then
        resolveSlugAux taken base (counter + 1) fuel
      else slugCandidate base counter

/-- Slug collision resolution of
AuthService.create_user_with_organization: keep the base slug if free,
otherwise try base-1, base-2, ... -/
def resolveSlug (taken : List String) (base : String) : String :=
  if taken.contains base then resolveSlugAux taken base 1 (taken.length + 1)
  else base

/-- A row of the org.organizations table, restricted to the fields the
signup flow writes. -/
structure OrgRec where
  id : Nat
  name : String
  slug : String
  deleted_at : Option Nat := none
deriving DecidableEq

/-- The committed local database as seen by the auth orchestrator. -/
structure AppDB where
  users : List UserRec
  orgs : List OrgRec
  memberships : List Membership
deriving DecidableEq

/-- The points at which create_user_with_organization can fail: the
provider call, or any of its three separate session.commit calls (a
commit that raises persists nothing of its own step). -/
inductive SignupFail
  | providerCall
  | userCommit
  | orgCommit
  | membershipCommit
deriving DecidableEq

/-- AuthService.create_user_with_organization.  The three commits are
separate transactions, so the store after each commit is observable
committed state; `failAt` injects a failure at one step, `none` is the
success path.  `slugifyFn` models the external slugify library applied
to the lowercased organization name; the fresh uuid4 values are the
newUserId / newOrgId / newMemId parameters. -/
def create_user_with_organization (db : AppDB)
    (failAt : Option SignupFail) (slugifyFn : String → String)
    (email first_name last_name : String)
    (organization_name : Option String) (provider_uid : String)
    (newUserId newOrgId newMemId now : Nat) :
    Except PyError (Nat × Nat) × AppDB :=
  if failAt = some .providerCall then (.error .providerError, db)
  else if failAt = some .userCommit then (.error .dbError, db)
  else
    let local_user : UserRec :=
      { id := newUserId, email := email,
        provider_user_id := some provider_uid }
    let db1 : AppDB := { db with users := db.users ++ [local_user] }
    if failAt = some .orgCommit then (.error .dbError, db1)
    else
      let org_name := organization_name.getD
        (first_name ++ " " ++ last_name
          ++ String.singleton (Char.ofNat 39) ++ "s Organization")
      let org_slug := resolveSlug (db1.orgs.map (fun o => o.slug))
        (slugifyFn org_name)
      let organization : OrgRec :=
        { id := newOrgId, name := org_name, slug := org_slug }
      let db2 : AppDB := { db1 with orgs := db1.orgs ++ [organization] }
      if failAt = some .membershipCommit then (.error .dbError, db2)
      else
        let membership : Membership :=
          { id := newMemId
            organization_id := newOrgId
            user_id := newUserId
            role := .OWNER
            status := .ACTIVE
            accepted_at := some now }
        let db3 : AppDB :=
          { db2 with memberships := db2.memberships ++ [membership] }
        (.ok (newUserId, newOrgId), db3)

/-! # Theorems -/

/-- C9: send_password_reset returns True whether or not a user with the
email exists and even when the lookup or the provider call raises; two
runs with arbitrary different outcomes return the same value, so the
result reveals nothing about the existence of the email. -/
theorem c9_send_password_reset_generic_success
    (lookupUser lookupUser2 : Except PyError (Option Nat))
    (providerSend providerSend2 : Except PyError Bool) :
    send_password_reset lookupUser providerSend = true
      ∧ send_password_reset lookupUser providerSend
          = send_password_reset lookupUser2 providerSend2 := by
  have key : ∀ (l : Except PyError (Option Nat)) (s : Except PyError Bool),
      send_password_reset l s = true := by
    intro l s
    rcases l with e | u
    · rfl
    · rcases u with _ | x
      · rfl
      · rcases s with e | b <;> rfl
  exact ⟨key _ _, by rw [key, key]⟩

/-- C10: creating a provider under an unregistered name returns the stub
provider, each of whose operations fails with the not-configured
error. -/
theorem c10_unregistered_provider_fails_closed
    (registry : List (String × (Nat → AuthProviderOps)))
    (provider_name : String) (config : Nat)
    (h : registry.find? (fun e => e.1 == provider_name) = none) :
    (∀ e pw, (create_provider registry provider_name config).authenticate e pw
        = .error .notConfigured)
    ∧ (∀ t, (create_provider registry provider_name config).validate_token t
        = .error .notConfigured)
    ∧ (∀ t, (create_provider registry provider_name config).refresh_token t
        = .error .notConfigured)
    ∧ (∀ e pw d, (create_provider registry provider_name config).create_user e pw d
        = .error .notConfigured)
    ∧ (∀ i, (create_provider registry provider_name config).get_user_by_id i
        = .error .notConfigured)
    ∧ (∀ e, (create_provider registry provider_name config).get_user_by_email e
        = .error .notConfigured)
    ∧ (∀ i d, (create_provider registry provider_name config).update_user i d
        = .error .notConfigured)
    ∧ (∀ i, (create_provider registry provider_name config).delete_user i
        = .error .notConfigured)
    ∧ (∀ i s, (create_provider registry provider_name config).logout i s
        = .error .notConfigured) := by
  unfold create_provider
  rw [h]
  exact ⟨fun _ _ => rfl, fun _ => rfl, fun _ => rfl, fun _ _ _ => rfl,
    fun _ => rfl, fun _ => rfl, fun _ _ => rfl, fun _ => rfl, fun _ _ => rfl⟩

/-- Witness for C10: the empty registry does not know the name, and the
created provider rejects every operation on concrete inputs. -/
theorem c10_unregistered_provider_fails_closed_witness :
    (([] : List (String × (Nat → AuthProviderOps))).find?
        (fun e => e.1 == "supabase") = none)
    ∧ (create_provider [] "supabase" 0).authenticate "a" "b" = .error .notConfigured
    ∧ (create_provider [] "supabase" 0).validate_token "t" = .error .notConfigured
    ∧ (create_provider [] "supabase" 0).refresh_token "r" = .error .notConfigured
    ∧ (create_provider [] "supabase" 0).create_user "a" "b" [] = .error .notConfigured
    ∧ (create_provider [] "supabase" 0).get_user_by_id "u" = .error .notConfigured
    ∧ (create_provider [] "supabase" 0).get_user_by_email "a" = .error .notConfigured
    ∧ (create_provider [] "supabase" 0).update_user "u" [] = .error .notConfigured
    ∧ (create_provider [] "supabase" 0).delete_user "u" = .error .notConfigured
    ∧ (create_provider [] "supabase" 0).logout "u" none = .error .notConfigured :=
  ⟨rfl,
    (c10_unregistered_provider_fails_closed [] "supabase" 0 rfl).1 "a" "b",
    (c10_unregistered_provider_fails_closed [] "supabase" 0 rfl).2.1 "t",
    (c10_unregistered_provider_fails_closed [] "supabase" 0 rfl).2.2.1 "r",
    (c10_unregistered_provider_fails_closed [] "supabase" 0 rfl).2.2.2.1 "a" "b" [],
    (c10_unregistered_provider_fails_closed [] "supabase" 0 rfl).2.2.2.2.1 "u",
    (c10_unregistered_provider_fails_closed [] "supabase" 0 rfl).2.2.2.2.2.1 "a",
    (c10_unregistered_provider_fails_closed [] "supabase" 0 rfl).2.2.2.2.2.2.1 "u" [],
    (c10_unregistered_provider_fails_closed [] "supabase" 0 rfl).2.2.2.2.2.2.2.1 "u",
    (c10_unregistered_provider_fails_closed [] "supabase" 0 rfl).2.2.2.2.2.2.2.2 "u" none⟩

/-- C5: the organization-access check accepts a non-superuser whose only
membership in the organization is ACTIVE but soft-deleted, while the
membership repository itself treats that membership as removed; the soft
delete therefore still grants access, contradicting the claim that a
removed membership grants no access. -/
theorem c5_soft_deleted_membership_grants_access :
    validate_organization_access
        [{ id := 4, email := "alice" }]
        [{ id := 5, organization_id := 9, user_id := 4, role := .OWNER,
           status := .ACTIVE, deleted_at := some 5 }] 4 9 = .ok ()
    ∧ get_by_organization_and_user
        [{ id := 5, organization_id := 9, user_id := 4, role := .OWNER,
           status := .ACTIVE, deleted_at := some 5 }] 9 4 = none
    ∧ ({ id := 4, email := "alice" } : UserRec).is_superuser = false :=
  ⟨rfl, rfl, rfl⟩

/-- C2: for a stored, unexpired session whose token the provider
rejects, validate_session removes the session from the store but fails
with a TypeError rather than SessionNotFound, because
SessionNotFoundError is constructed with a message its no-argument init
cannot accept; the subsequent call with the same token does fail with
SessionNotFound. -/
theorem c2_provider_rejection_behavior :
    validate_session
        [("t", { user_id := 1, provider_user_id := "p", access_token := "t",
                 refresh_token := "r", expires_at := 100 })]
        (fun _ => false) 50 "t" = (.error .typeError, [])
    ∧ validate_session [] (fun _ => false) 50 "t"
        = (.error .sessionNotFound, []) :=
  ⟨rfl, rfl⟩

/-- C4 counterexample: for a stored session, a provider logout failure
propagates before the local deletion, so the local session is not
deactivated — the claim that provider failure does not prevent local
deactivation is false on the code. -/
theorem c4_logout_counterexample :
    logout [("t", { user_id := 1, provider_user_id := "p", access_token := "t", refresh_token := "r", expires_at := 100 })] false "t"
      = (.error .providerError,
         [("t", { user_id := 1, provider_user_id := "p", access_token := "t", refresh_token := "r", expires_at := 100 })])
    ∧ storeGet
        (logout [("t", { user_id := 1, provider_user_id := "p", access_token := "t", refresh_token := "r", expires_at := 100 })] false "t").2 "t"
      = some { user_id := 1, provider_user_id := "p", access_token := "t",
               refresh_token := "r", expires_at := 100 } :=
  ⟨rfl, rfl⟩

/-- C4 amended: for a stored session, logout removes the local session
and returns True when the provider logout succeeds; when the provider
logout raises, the error propagates and the local session stays in the
store. -/
theorem c4_logout_amended (store : SessionStore)
    (providerLogoutOk : Bool) (access_token : String) (sd : SessionData)
    (h : storeGet store access_token = some sd) :
    (providerLogoutOk = true →
      logout store providerLogoutOk access_token
        = (.ok true, storeDel store access_token))
    ∧ (providerLogoutOk = false →
      logout store providerLogoutOk access_token
        = (.error .providerError, store)) := by
  unfold logout
  rw [h]
  constructor
  · intro hp; rw [hp]; rfl
  · intro hp; rw [hp]; rfl

/-- Witness for C4 amended, on a one-session store. -/
theorem c4_logout_amended_witness :
    storeGet [("t", { user_id := 1, provider_user_id := "p", access_token := "t", refresh_token := "r", expires_at := 100 })] "t"
      = some { user_id := 1, provider_user_id := "p", access_token := "t",
               refresh_token := "r", expires_at := 100 }
    ∧ logout [("t", { user_id := 1, provider_user_id := "p", access_token := "t", refresh_token := "r", expires_at := 100 })] true "t"
      = (.ok true, [])
    ∧ logout [("t", { user_id := 1, provider_user_id := "p", access_token := "t", refresh_token := "r", expires_at := 100 })] false "t"
      = (.error .providerError,
         [("t", { user_id := 1, provider_user_id := "p", access_token := "t", refresh_token := "r", expires_at := 100 })]) :=
  ⟨rfl,
    (c4_logout_amended
      [("t", { user_id := 1, provider_user_id := "p", access_token := "t", refresh_token := "r", expires_at := 100 })]
      true "t"
      { user_id := 1, provider_user_id := "p", access_token := "t", refresh_token := "r", expires_at := 100 }
      rfl).1 rfl,
    (c4_logout_amended
      [("t", { user_id := 1, provider_user_id := "p", access_token := "t", refresh_token := "r", expires_at := 100 })]
      false "t"
      { user_id := 1, provider_user_id := "p", access_token := "t", refresh_token := "r", expires_at := 100 }
      rfl).2 rfl⟩

/-- C8: in a state where user 1 holds an OWNER membership that is still
INVITED, user 1 nevertheless passes the can_manage_users checks:
create_membership lets them invite user 3, and update_user_role lets
them change the role of active member 2 — the checks never consult the
checker's own status. -/
theorem c8_invited_owner_can_manage :
    ({ id := 1, organization_id := 1, user_id := 1, role := .OWNER,
       status := .INVITED } : Membership).status = .INVITED
    ∧ (∃ m db', create_membership
        [{ id := 1, organization_id := 1, user_id := 1, role := .OWNER,
           status := .INVITED },
         { id := 2, organization_id := 1, user_id := 2, role := .VIEWER,
           status := .ACTIVE }]
        { organization_id := 1, user_id := 3 } 1 50 99 = .ok (m, db'))
    ∧ (∃ m2 db2, update_user_role
        [{ id := 1, organization_id := 1, user_id := 1, role := .OWNER,
           status := .INVITED },
         { id := 2, organization_id := 1, user_id := 2, role := .VIEWER,
           status := .ACTIVE }] 1 2 .EDITOR 1 = .ok (m2, db2)
        ∧ m2.role = .EDITOR) :=
  ⟨rfl, ⟨_, _, rfl⟩, ⟨_, _, rfl, rfl⟩⟩

/-- Unpacking of a successful get_by_organization_and_user lookup. -/
theorem get_by_organization_and_user_spec {db : List Membership}
    {organization_id user_id : Nat} {m : Membership}
    (h : get_by_organization_and_user db organization_id user_id = some m) :
    m ∈ db ∧ m.organization_id = organization_id ∧ m.user_id = user_id
      ∧ m.deleted_at = none := by
  have hmem := List.mem_of_find?_eq_some h
  have hp := List.find?_some h
  simp only [Bool.and_eq_true, beq_iff_eq] at hp
  exact ⟨hmem, hp.1.1, hp.1.2, hp.2⟩

/-- mapById unfolds on a cons cell. -/
theorem mapById_cons (a : Membership) (tl : List Membership) (i : Nat)
    (g : Membership → Membership) :
    mapById (a :: tl) i g = (if a.id == i then g a else a) :: mapById tl i g :=
  rfl

/-- mapById is the identity when no row has the key. -/
theorem mapById_of_no_hit (i : Nat) (g : Membership → Membership) :
    ∀ db : List Membership, (∀ x ∈ db, x.id ≠ i) → mapById db i g = db := by
  intro db
  induction db with
  | nil => intro _; rfl
  | cons a tl ih =>
    intro h
    rw [mapById_cons]
    have ha : (a.id == i) = false := by
      simpa using h a (List.mem_cons_self a tl)
    simp only [ha, Bool.false_eq_true, if_false]
    rw [ih fun x hx => h x (List.mem_cons_of_mem a hx)]

/-- A field that `g` preserves on the hit row is preserved across the
whole table by mapById, provided primary keys are unique. -/
theorem map_f_mapById {β : Type} (f : Membership → β)
    (g : Membership → Membership) (m : Membership) (hf : f (g m) = f m) :
    ∀ db : List Membership, m ∈ db → (db.map Membership.id).Nodup →
    (mapById db m.id g).map f = db.map f := by
  intro db
  induction db with
  | nil => intro h _; cases h
  | cons a tl ih =>
    intro hmem hnd
    simp only [List.map_cons, List.nodup_cons] at hnd
    obtain ⟨ha, hnd'⟩ := hnd
    rw [mapById_cons]
    rcases List.mem_cons.mp hmem with hma | htl
    · subst hma
      have htail : ∀ x ∈ tl, x.id ≠ m.id := fun x hx hq =>
        ha (List.mem_map.mpr ⟨x, hx, hq⟩)
      rw [mapById_of_no_hit m.id g tl htail]
      simp [hf]
    · have hne : (a.id == m.id) = false := by
        have hq : a.id ≠ m.id := fun hq =>
          ha (List.mem_map.mpr ⟨m, htl, hq.symm⟩)
        simpa using hq
      simp only [hne, Bool.false_eq_true, if_false, List.map_cons]
      rw [ih htl hnd']

/-- How mapById changes a countP when primary keys are unique: only the
hit row `m`, rewritten to `g m`, can change the count. -/
theorem countP_mapById (p : Membership → Bool)
    (g : Membership → Membership) (m : Membership) :
    ∀ db : List Membership, m ∈ db → (db.map Membership.id).Nodup →
    (mapById db m.id g).countP p + (if p m then 1 else 0)
      = db.countP p + (if p (g m) then 1 else 0) := by
  intro db
  induction db with
  | nil => intro h _; cases h
  | cons a tl ih =>
    intro hmem hnd
    simp only [List.map_cons, List.nodup_cons] at hnd
    obtain ⟨ha, hnd'⟩ := hnd
    rw [mapById_cons]
    rcases List.mem_cons.mp hmem with hma | htl
    · subst hma
      have htail : ∀ x ∈ tl, x.id ≠ m.id := fun x hx hq =>
        ha (List.mem_map.mpr ⟨x, hx, hq⟩)
      rw [mapById_of_no_hit m.id g tl htail]
      simp only [beq_self_eq_true, if_true, List.countP_cons]
      by_cases hpm : p m = true <;> by_cases hpg : p (g m) = true <;>
        simp [hpm, hpg]
    · have hne : (a.id == m.id) = false := by
        have hq : a.id ≠ m.id := fun hq =>
          ha (List.mem_map.mpr ⟨m, htl, hq.symm⟩)
        simpa using hq
      simp only [hne, Bool.false_eq_true, if_false, List.countP_cons]
      have := ih htl hnd'
      omega

/-- The fetch inside CRUDBase.remove returns exactly the row the service
already fetched, when primary keys are unique. -/
theorem crud_get_eq_some (m : Membership) (hdel : m.deleted_at = none) :
    ∀ db : List Membership, m ∈ db → (db.map Membership.id).Nodup →
    crud_get db m.id = some m := by
  intro db
  induction db with
  | nil => intro h _; cases h
  | cons a tl ih =>
    intro hmem hnd
    simp only [List.map_cons, List.nodup_cons] at hnd
    obtain ⟨ha, hnd'⟩ := hnd
    rcases List.mem_cons.mp hmem with hma | htl
    · subst hma
      simp only [crud_get]
      apply List.find?_cons_of_pos
      simp [hdel]
    · have hne : (a.id == m.id) = false := by
        have hq : a.id ≠ m.id := fun hq =>
          ha (List.mem_map.mpr ⟨m, htl, hq.symm⟩)
        simpa using hq
      simp only [crud_get]
      rw [List.find?_cons_of_neg]
      · exact ih htl hnd'
      · simp [hne]

/-- Unpacking of a successful accept_invitation call. -/
theorem accept_invitation_ok_state {db : List Membership}
    {organization_id user_id now : Nat} {m' : Membership}
    {db' : List Membership}
    (h : accept_invitation db organization_id user_id now = .ok (m', db')) :
    ∃ m, get_by_organization_and_user db organization_id user_id = some m
      ∧ m.status = .INVITED
      ∧ m' = applyUpdate m
          { status := some .ACTIVE, accepted_at := some now } user_id
      ∧ db' = mapById db m.id (fun _ => m') := by
  cases hfind : get_by_organization_and_user db organization_id user_id with
  | none =>
    simp only [accept_invitation, hfind] at h
    exact Except.noConfusion h
  | some m =>
    simp only [accept_invitation, hfind] at h
    cases hs : m.status == MembershipStatus.ACTIVE with
    | true =>
      rw [hs, if_pos rfl] at h
      exact Except.noConfusion h
    | false =>
      rw [hs, if_neg (by simp)] at h
      have hp := Except.ok.inj h
      have hst : m.status = .INVITED := by
        cases hms : m.status
        · rfl
        · rw [hms] at hs; simp at hs
      have h1 := congrArg Prod.fst hp
      have h2 := congrArg Prod.snd hp
      refine ⟨m, rfl, hst, h1.symm, ?_⟩
      rw [show m' = applyUpdate m
        { status := some .ACTIVE, accepted_at := some now } user_id
        from h1.symm]
      exact h2.symm

/-- Unpacking of a successful update_user_role call. -/
theorem update_user_role_ok_state {db : List Membership}
    {organization_id user_id : Nat} {new_role : MembershipRole}
    {updated_by_id : Nat} {m' : Membership} {db' : List Membership}
    (h : update_user_role db organization_id user_id new_role updated_by_id
      = .ok (m', db')) :
    ∃ m updater,
      get_by_organization_and_user db organization_id user_id = some m
      ∧ get_by_organization_and_user db organization_id updated_by_id
          = some updater
      ∧ updater.can_manage_users = true
      ∧ ((m.role == MembershipRole.OWNER && new_role != MembershipRole.OWNER
          && decide ((get_organization_owners db organization_id).length ≤ 1))
            = false)
      ∧ m' = applyUpdate m { role := some new_role } updated_by_id
      ∧ db' = mapById db m.id (fun _ => m') := by
  cases hfind : get_by_organization_and_user db organization_id user_id with
  | none =>
    simp only [update_user_role, hfind] at h
    exact Except.noConfusion h
  | some m =>
    cases hup : get_by_organization_and_user db organization_id updated_by_id with
    | none =>
      simp only [update_user_role, hfind, hup] at h
      exact Except.noConfusion h
    | some updater =>
      simp only [update_user_role, hfind, hup] at h
      cases hcan : updater.can_manage_users with
      | false =>
        rw [hcan] at h
        rw [show (!false) = true from rfl, if_pos rfl] at h
        exact Except.noConfusion h
      | true =>
        rw [hcan] at h
        rw [show (!true) = false from rfl, if_neg (by simp)] at h
        cases hguard : m.role == MembershipRole.OWNER
            && new_role != MembershipRole.OWNER
            && decide ((get_organization_owners db organization_id).length ≤ 1) with
        | true =>
          rw [hguard, if_pos rfl] at h
          exact Except.noConfusion h
        | false =>
          rw [hguard, if_neg (by simp)] at h
          have hp := Except.ok.inj h
          have h1 := congrArg Prod.fst hp
          have h2 := congrArg Prod.snd hp
          refine ⟨m, updater, rfl, rfl, hcan, hguard, h1.symm, ?_⟩
          rw [show m' = applyUpdate m { role := some new_role } updated_by_id
            from h1.symm]
          exact h2.symm

/-- Unpacking of a successful remove_user_from_organization call. -/
theorem remove_ok_state {db : List Membership}
    {organization_id user_id removed_by_id now : Nat} {res : Bool}
    {db' : List Membership}
    (h : remove_user_from_organization db organization_id user_id
        removed_by_id now = .ok (res, db')) :
    ∃ m, get_by_organization_and_user db organization_id user_id = some m
      ∧ ((m.role == MembershipRole.OWNER
          && decide ((get_organization_owners db organization_id).length ≤ 1))
            = false)
      ∧ (res, db') = repoRemove db m.id removed_by_id now := by
  cases hfind : get_by_organization_and_user db organization_id user_id with
  | none =>
    simp only [remove_user_from_organization, hfind] at h
    exact Except.noConfusion h
  | some m =>
    simp only [remove_user_from_organization, hfind] at h
    cases hperm : user_id != removed_by_id
        && !((get_by_organization_and_user db organization_id
            removed_by_id).any Membership.can_manage_users) with
    | true =>
      rw [hperm, if_pos rfl] at h
      exact Except.noConfusion h
    | false =>
      rw [hperm, if_neg (by simp)] at h
      cases hguard : m.role == MembershipRole.OWNER
          && decide ((get_organization_owners db organization_id).length ≤ 1) with
      | true =>
        rw [hguard, if_pos rfl] at h
        exact Except.noConfusion h
      | false =>
        rw [hguard, if_neg (by simp)] at h
        exact ⟨m, rfl, hguard, (Except.ok.inj h).symm⟩

/-- C7: accept_invitation fails with InvitationNotFound when no
non-deleted membership exists for the pair, fails with
InvitationAlreadyAccepted when the membership is ACTIVE (raising before
any write, so the store is unchanged), and otherwise succeeds with the
membership set to ACTIVE and a non-null accepted-at stamp. -/
theorem c7_accept_invitation_cases (db : List Membership)
    (organization_id user_id now : Nat) :
    ((∀ m ∈ db, ¬(m.organization_id = organization_id ∧ m.user_id = user_id
        ∧ m.deleted_at = none)) →
      accept_invitation db organization_id user_id now
        = .error .invitationNotFound)
    ∧ (∀ m, get_by_organization_and_user db organization_id user_id = some m →
        m.status = .ACTIVE →
        accept_invitation db organization_id user_id now
          = .error .invitationAlreadyAccepted)
    ∧ (∀ m, get_by_organization_and_user db organization_id user_id = some m →
        m.status ≠ .ACTIVE →
        ∃ m' db', accept_invitation db organization_id user_id now
            = .ok (m', db')
          ∧ m'.status = .ACTIVE ∧ m'.accepted_at = some now) := by
  refine ⟨?_, ?_, ?_⟩
  · intro h
    have hnone : get_by_organization_and_user db organization_id user_id
        = none := by
      apply List.find?_eq_none.mpr
      intro m hm
      have := h m hm
      simp only [Bool.and_eq_true, beq_iff_eq]
      tauto
    unfold accept_invitation
    rw [hnone]
  · intro m hm hs
    unfold accept_invitation
    rw [hm]
    simp [hs]
  · intro m hm hs
    unfold accept_invitation
    rw [hm]
    have hb : (m.status == MembershipStatus.ACTIVE) = false := by
      simpa using hs
    simp only [hb, Bool.false_eq_true, if_false]
    exact ⟨_, _, rfl, rfl, rfl⟩

/-- Witness for C7: the not-found case on an empty table and the
success case on a table holding one INVITED membership. -/
theorem c7_accept_invitation_cases_witness :
    accept_invitation [] 1 2 9 = .error .invitationNotFound
    ∧ (∃ m' db', accept_invitation
        [{ id := 1, organization_id := 1, user_id := 2, role := .VIEWER,
           status := .INVITED }] 1 2 9 = .ok (m', db')
        ∧ m'.status = .ACTIVE ∧ m'.accepted_at = some 9) :=
  ⟨(c7_accept_invitation_cases [] 1 2 9).1 (by intro m hm; cases hm),
    (c7_accept_invitation_cases
      [{ id := 1, organization_id := 1, user_id := 2, role := .VIEWER,
         status := .INVITED }] 1 2 9).2.2
      { id := 1, organization_id := 1, user_id := 2, role := .VIEWER,
        status := .INVITED } rfl (by decide)⟩

/-- A row rewrite that preserves a field preserves the map of that field
over the whole table, with no uniqueness assumption. -/
theorem map_f_mapById_pointwise {β : Type} (f : Membership → β)
    (g : Membership → Membership) (i : Nat) (hf : ∀ x, f (g x) = f x) :
    ∀ db : List Membership, (mapById db i g).map f = db.map f := by
  intro db
  induction db with
  | nil => rfl
  | cons a tl ih =>
    rw [mapById_cons]
    by_cases h : (a.id == i) = true <;> simp [h, hf, ih]

/-- C6 counterexample: update_membership applied to an ACTIVE membership
with a MembershipUpdate carrying status INVITED moves the membership
from ACTIVE back to INVITED, both in the returned object and in the
committed table. -/
theorem c6_active_to_invited_counterexample :
    ({ id := 1, organization_id := 1, user_id := 2, role := .VIEWER, status := .ACTIVE } : Membership).status = .ACTIVE
    ∧ ((update_membership
        [{ id := 1, organization_id := 1, user_id := 2, role := .VIEWER, status := .ACTIVE }]
        { id := 1, organization_id := 1, user_id := 2, role := .VIEWER, status := .ACTIVE }
        { status := some .INVITED } 3).1).status = .INVITED
    ∧ (update_membership
        [{ id := 1, organization_id := 1, user_id := 2, role := .VIEWER, status := .ACTIVE }]
        { id := 1, organization_id := 1, user_id := 2, role := .VIEWER, status := .ACTIVE }
        { status := some .INVITED } 3).2.map Membership.status = [.INVITED] :=
  ⟨rfl, rfl, rfl⟩

/-- C6 amended: the status transition discipline holds for every
membership-engine operation except update_membership: accept_invitation
only turns an INVITED membership ACTIVE, and neither update_user_role
nor remove_user_from_organization changes any membership status; but
update_membership writes whatever status the MembershipUpdate carries
(keeping the old one only when unset), so ACTIVE→INVITED is reachable
through it. -/
theorem c6_status_one_way_amended :
    (∀ (db : List Membership) (o u now : Nat) (m' : Membership)
      (db' : List Membership),
      accept_invitation db o u now = .ok (m', db') →
      m'.status = .ACTIVE
        ∧ ∃ m, get_by_organization_and_user db o u = some m
            ∧ m.status = .INVITED)
    ∧ (∀ (db : List Membership) (o u : Nat) (r : MembershipRole) (b : Nat)
        (m' : Membership) (db' : List Membership),
        (db.map Membership.id).Nodup →
        update_user_role db o u r b = .ok (m', db') →
        db'.map Membership.status = db.map Membership.status)
    ∧ (∀ (db : List Membership) (o u b now : Nat) (res : Bool)
        (db' : List Membership),
        remove_user_from_organization db o u b now = .ok (res, db') →
        db'.map Membership.status = db.map Membership.status)
    ∧ (∀ (m : Membership) (upd : MembershipUpdate) (b : Nat),
        ((update_membership [m] m upd b).1).status = upd.status.getD m.status) := by
  refine ⟨?_, ?_, ?_, ?_⟩
  · intro db o u now m' db' h
    obtain ⟨m, hfind, hst, hm', _⟩ := accept_invitation_ok_state h
    exact ⟨by rw [hm']; rfl, m, hfind, hst⟩
  · intro db o u r b m' db' hnd h
    obtain ⟨m, _, hfind, _, _, _, hm', hdb'⟩ := update_user_role_ok_state h
    obtain ⟨hmem, -, -, -⟩ := get_by_organization_and_user_spec hfind
    rw [hdb']
    exact map_f_mapById Membership.status (fun _ => m') m
      (by rw [hm']; rfl) db hmem hnd
  · intro db o u b now res db' h
    obtain ⟨m, hfind, _, hpair⟩ := remove_ok_state h
    have hdb' := congrArg Prod.snd hpair
    cases hc : crud_get db m.id with
    | none =>
      simp only [repoRemove, hc] at hdb'
      rw [hdb']
    | some m0 =>
      simp only [repoRemove, hc] at hdb'
      rw [hdb']
      exact map_f_mapById_pointwise Membership.status
        (fun x => softDelete x now b) m0.id (fun x => rfl) db
  · intro m upd b
    rfl

/-- Witness for C6 amended: a concrete accepted invitation turns INVITED
into ACTIVE, and a concrete role update leaves all statuses unchanged. -/
theorem c6_status_one_way_amended_witness :
    ({ id := 1, organization_id := 1, user_id := 2, role := .VIEWER, status := .ACTIVE, accepted_at := some 9, updated_by := some 2 } : Membership).status = .ACTIVE
    ∧ (∃ m, get_by_organization_and_user
        [{ id := 1, organization_id := 1, user_id := 2, role := .VIEWER, status := .INVITED }] 1 2 = some m
        ∧ m.status = .INVITED) :=
  c6_status_one_way_amended.1
    [{ id := 1, organization_id := 1, user_id := 2, role := .VIEWER, status := .INVITED }]
    1 2 9
    { id := 1, organization_id := 1, user_id := 2, role := .VIEWER, status := .ACTIVE, accepted_at := some 9, updated_by := some 2 }
    [{ id := 1, organization_id := 1, user_id := 2, role := .VIEWER, status := .ACTIVE, accepted_at := some 9, updated_by := some 2 }]
    rfl

/-- The owners list fetched by the service is at most as long as the
true number of active owners (it is a paginated prefix of the same
filter). -/
theorem owners_length_le (db : List Membership) (organization_id : Nat) :
    (get_organization_owners db organization_id).length
      ≤ activeOwnerCount db organization_id := by
  simp only [get_organization_owners, get_memberships, activeOwnerCount,
    List.drop_zero, List.countP_eq_length_filter, List.length_take]
  exact Nat.min_le_right _ _

/-- Decomposition of the active-owner filter. -/
theorem membershipFilter_owner_true {organization_id : Nat} {m : Membership}
    (h : membershipFilter organization_id (some .ACTIVE) (some .OWNER) m
      = true) :
    m.organization_id = organization_id ∧ m.deleted_at = none
      ∧ m.status = .ACTIVE ∧ m.role = .OWNER := by
  simp only [membershipFilter, Bool.and_eq_true, beq_iff_eq] at h
  exact ⟨h.1.1.1, h.1.1.2, h.1.2, h.2⟩

/-- A successful update_user_role call keeps at least one active owner
in every organization that had one, and keeps primary keys unique. -/
theorem update_user_role_preserves (org : Nat) {db : List Membership}
    {o u : Nat} {r : MembershipRole} {b : Nat} {m' : Membership}
    {db' : List Membership}
    (hnd : (db.map Membership.id).Nodup)
    (hc : 1 ≤ activeOwnerCount db org)
    (h : update_user_role db o u r b = .ok (m', db')) :
    1 ≤ activeOwnerCount db' org ∧ (db'.map Membership.id).Nodup := by
  obtain ⟨m, updater, hfind, hup, hcan, hguard, hm', hdb'⟩ :=
    update_user_role_ok_state h
  obtain ⟨hmem, horg, huser, hdel⟩ := get_by_organization_and_user_spec hfind
  have hids : (db'.map Membership.id).Nodup := by
    rw [hdb', map_f_mapById Membership.id (fun _ => m') m (by rw [hm']; rfl)
      db hmem hnd]
    exact hnd
  refine ⟨?_, hids⟩
  have hcount := countP_mapById
    (membershipFilter org (some .ACTIVE) (some .OWNER)) (fun _ => m') m
    db hmem hnd
  rw [hdb', activeOwnerCount]
  by_cases hpm :
      membershipFilter org (some .ACTIVE) (some .OWNER) m = true
  · obtain ⟨horg2, -, hstat, hrole⟩ := membershipFilter_owner_true hpm
    have ho : o = org := by rw [← horg, horg2]
    subst ho
    by_cases hr : r = MembershipRole.OWNER
    · have hpm' :
          membershipFilter o (some .ACTIVE) (some .OWNER) m' = true := by
        rw [hm']
        simp [membershipFilter, applyUpdate, hr, horg2, hdel, hstat]
      rw [hpm, hpm'] at hcount
      rw [activeOwnerCount] at hc
      omega
    · have hrb : (m.role == MembershipRole.OWNER) = true := by
        simp [hrole]
      have hgb : (r != MembershipRole.OWNER) = true := by
        simp [hr]
      rw [hrb, hgb] at hguard
      simp only [Bool.true_and, decide_eq_false_iff_not] at hguard
      have hlen := owners_length_le db o
      have hcnt2 : 2 ≤ activeOwnerCount db o := by omega
      have hpm' :
          membershipFilter o (some .ACTIVE) (some .OWNER) m' = false := by
        have hrq : (r == MembershipRole.OWNER) = false := by simp [hr]
        rw [hm']
        simp [membershipFilter, applyUpdate, hrq]
      rw [hpm, hpm'] at hcount
      rw [activeOwnerCount] at hcnt2
      simp at hcount
      omega
  · have hpmf :
        membershipFilter org (some .ACTIVE) (some .OWNER) m = false := by
      simpa using hpm
    rw [hpmf] at hcount
    rw [activeOwnerCount] at hc
    cases hpm' :
        membershipFilter org (some .ACTIVE) (some .OWNER) m' with
    | true => rw [hpm'] at hcount; simp at hcount; omega
    | false => rw [hpm'] at hcount; simp at hcount; omega

/-- A successful remove_user_from_organization call keeps at least one
active owner in every organization that had one, and keeps primary keys
unique. -/
theorem remove_preserves (org : Nat) {db : List Membership}
    {o u b now : Nat} {res : Bool} {db' : List Membership}
    (hnd : (db.map Membership.id).Nodup)
    (hc : 1 ≤ activeOwnerCount db org)
    (h : remove_user_from_organization db o u b now = .ok (res, db')) :
    1 ≤ activeOwnerCount db' org ∧ (db'.map Membership.id).Nodup := by
  obtain ⟨m, hfind, hguard, hpair⟩ := remove_ok_state h
  obtain ⟨hmem, horg, huser, hdel⟩ := get_by_organization_and_user_spec hfind
  have hcrud := crud_get_eq_some m hdel db hmem hnd
  have hdb' : db' = mapById db m.id (fun x => softDelete x now b) := by
    have h2 := congrArg Prod.snd hpair
    simp only [repoRemove, hcrud] at h2
    exact h2
  have hids : (db'.map Membership.id).Nodup := by
    rw [hdb', map_f_mapById Membership.id (fun x => softDelete x now b) m
      rfl db hmem hnd]
    exact hnd
  refine ⟨?_, hids⟩
  have hcount := countP_mapById
    (membershipFilter org (some .ACTIVE) (some .OWNER))
    (fun x => softDelete x now b) m db hmem hnd
  have hpmd :
      membershipFilter org (some .ACTIVE) (some .OWNER)
        (softDelete m now b) = false := by
    simp [membershipFilter, softDelete]
  rw [hdb', activeOwnerCount]
  by_cases hpm :
      membershipFilter org (some .ACTIVE) (some .OWNER) m = true
  · obtain ⟨horg2, -, hstat, hrole⟩ := membershipFilter_owner_true hpm
    have ho : o = org := by rw [← horg, horg2]
    subst ho
    have hrb : (m.role == MembershipRole.OWNER) = true := by
      simp [hrole]
    rw [hrb] at hguard
    simp only [Bool.true_and, decide_eq_false_iff_not] at hguard
    have hlen := owners_length_le db o
    have hcnt2 : 2 ≤ activeOwnerCount db o := by omega
    rw [hpm, hpmd] at hcount
    rw [activeOwnerCount] at hcnt2
    simp at hcount
    omega
  · have hpmf :
        membershipFilter org (some .ACTIVE) (some .OWNER) m = false := by
      simpa using hpm
    rw [hpmf, hpmd] at hcount
    rw [activeOwnerCount] at hc
    simp at hcount
    omega

/-- One membership-engine call preserves the last-owner bound and
primary-key uniqueness. -/
theorem applyMemOp_preserves (org : Nat) (db : List Membership)
    (op : MemOp) (hnd : (db.map Membership.id).Nodup)
    (hc : 1 ≤ activeOwnerCount db org) :
    1 ≤ activeOwnerCount (applyMemOp db op) org
      ∧ ((applyMemOp db op).map Membership.id).Nodup := by
  cases op with
  | updateRole o u r b =>
    simp only [applyMemOp]
    cases hres : update_user_role db o u r b with
    | error e => exact ⟨hc, hnd⟩
    | ok p =>
      cases p with
      | mk m' db' => exact update_user_role_preserves org hnd hc hres
  | removeUser o u b now =>
    simp only [applyMemOp]
    cases hres : remove_user_from_organization db o u b now with
    | error e => exact ⟨hc, hnd⟩
    | ok p =>
      cases p with
      | mk res db' => exact remove_preserves org hnd hc hres

/-- A whole sequence of membership-engine calls preserves the last-owner
bound and primary-key uniqueness. -/
theorem applyMemOps_preserves (org : Nat) (ops : List MemOp) :
    ∀ db : List Membership, (db.map Membership.id).Nodup →
    1 ≤ activeOwnerCount db org →
    1 ≤ activeOwnerCount (applyMemOps db ops) org
      ∧ ((applyMemOps db ops).map Membership.id).Nodup := by
  induction ops with
  | nil => intro db hnd hc; exact ⟨hc, hnd⟩
  | cons op ops ih =>
    intro db hnd hc
    have h := applyMemOp_preserves org db op hnd hc
    exact ih (applyMemOp db op) h.2 h.1

/-- Demoting the only active owner fails with LastOwnerRemoval. -/
theorem demote_last_owner_fails {db : List Membership} {org u b : Nat}
    {r : MembershipRole} {m updater : Membership}
    (hm : get_by_organization_and_user db org u = some m)
    (hrole : m.role = .OWNER) (hr : r ≠ .OWNER)
    (hcount : activeOwnerCount db org = 1)
    (hup : get_by_organization_and_user db org b = some updater)
    (hcan : updater.can_manage_users = true) :
    update_user_role db org u r b = .error .lastOwnerRemoval := by
  have hlen : (get_organization_owners db org).length ≤ 1 := by
    have := owners_length_le db org
    omega
  have hguard : (m.role == MembershipRole.OWNER
      && r != MembershipRole.OWNER
      && decide ((get_organization_owners db org).length ≤ 1)) = true := by
    simp [hrole, hr, hlen]
  simp only [update_user_role, hm, hup, hcan]
  rw [show (!true) = false from rfl, if_neg (by simp), if_pos hguard]

/-- Removing the only active owner fails with LastOwnerRemoval, both on
self-removal and on removal by an authorized owner. -/
theorem removal_last_owner_fails {db : List Membership} {org u b now : Nat}
    {m : Membership}
    (hm : get_by_organization_and_user db org u = some m)
    (hrole : m.role = .OWNER)
    (hcount : activeOwnerCount db org = 1)
    (hperm : u = b ∨ ∃ remover,
      get_by_organization_and_user db org b = some remover
        ∧ remover.can_manage_users = true) :
    remove_user_from_organization db org u b now
      = .error .lastOwnerRemoval := by
  have hlen : (get_organization_owners db org).length ≤ 1 := by
    have := owners_length_le db org
    omega
  have hguard : (m.role == MembershipRole.OWNER
      && decide ((get_organization_owners db org).length ≤ 1)) = true := by
    simp [hrole, hlen]
  have hpermb : (u != b
      && !((get_by_organization_and_user db org b).any
          Membership.can_manage_users)) = false := by
    rcases hperm with hub | ⟨remover, hrm, hcan⟩
    · simp [hub]
    · simp [hrm, hcan]
  simp only [remove_user_from_organization, hm]
  rw [hpermb, if_neg (by simp), if_pos hguard]

/-- C1: starting from any table with unique primary keys in which an
organization has at least one active OWNER, any sequence of
update_user_role and remove_user_from_organization calls leaves at
least one active OWNER; and in any reached state with exactly one
active OWNER, demoting that owner to a non-OWNER role (by an authorized
updater) or removing that owner (by self or an authorized remover)
fails with LastOwnerRemoval, returning no new state. -/
theorem c1_last_owner_invariant (org : Nat) (db : List Membership)
    (ops : List MemOp) (hnd : (db.map Membership.id).Nodup)
    (hinit : 1 ≤ activeOwnerCount db org) :
    1 ≤ activeOwnerCount (applyMemOps db ops) org
    ∧ (∀ u (r : MembershipRole) b m updater,
        get_by_organization_and_user (applyMemOps db ops) org u = some m →
        m.role = .OWNER → m.status = .ACTIVE → r ≠ .OWNER →
        activeOwnerCount (applyMemOps db ops) org = 1 →
        get_by_organization_and_user (applyMemOps db ops) org b
          = some updater →
        updater.can_manage_users = true →
        update_user_role (applyMemOps db ops) org u r b
          = .error .lastOwnerRemoval)
    ∧ (∀ u b now m,
        get_by_organization_and_user (applyMemOps db ops) org u = some m →
        m.role = .OWNER → m.status = .ACTIVE →
        activeOwnerCount (applyMemOps db ops) org = 1 →
        (u = b ∨ ∃ remover,
          get_by_organization_and_user (applyMemOps db ops) org b
              = some remover
            ∧ remover.can_manage_users = true) →
        remove_user_from_organization (applyMemOps db ops) org u b now
          = .error .lastOwnerRemoval) := by
  refine ⟨(applyMemOps_preserves org ops db hnd hinit).1, ?_, ?_⟩
  · intro u r b m updater hm hrole hstat hr hcount hup hcan
    exact demote_last_owner_fails hm hrole hr hcount hup hcan
  · intro u b now m hm hrole hstat hcount hperm
    exact removal_last_owner_fails hm hrole hcount hperm

/-- Witness for C1: a single-owner organization, after an attempted (and
blocked) demotion of that owner, still has its active owner. -/
theorem c1_last_owner_invariant_witness :
    (([{ id := 1, organization_id := 1, user_id := 1, role := .OWNER, status := .ACTIVE }].map Membership.id).Nodup
      ∧ 1 ≤ activeOwnerCount
          [{ id := 1, organization_id := 1, user_id := 1, role := .OWNER, status := .ACTIVE }] 1)
    ∧ 1 ≤ activeOwnerCount
        (applyMemOps
          [{ id := 1, organization_id := 1, user_id := 1, role := .OWNER, status := .ACTIVE }]
          [.updateRole 1 1 .EDITOR 1]) 1 :=
  ⟨⟨by decide, by decide⟩,
    (c1_last_owner_invariant 1
      [{ id := 1, organization_id := 1, user_id := 1, role := .OWNER, status := .ACTIVE }]
      [.updateRole 1 1 .EDITOR 1] (by decide) (by decide)).1⟩

/-- Nat.digitChar is injective below 10. -/
theorem digitChar_inj_lt10 :
    ∀ d e : Fin 10, Nat.digitChar d.val = Nat.digitChar e.val → d = e := by
  decide

/-- Mapping digitChar over digit lists is injective. -/
theorem map_digitChar_inj :
    ∀ l1 l2 : List Nat, (∀ d ∈ l1, d < 10) → (∀ d ∈ l2, d < 10) →
    l1.map Nat.digitChar = l2.map Nat.digitChar → l1 = l2 := by
  intro l1
  induction l1 with
  | nil =>
    intro l2 _ _ h
    cases l2 with
    | nil => rfl
    | cons b t2 => simp at h
  | cons a t ih =>
    intro l2 h1 h2 h
    cases l2 with
    | nil => simp at h
    | cons b t2 =>
      simp only [List.map_cons, List.cons.injEq] at h
      have ha : a < 10 := h1 a (List.mem_cons_self _ _)
      have hb : b < 10 := h2 b (List.mem_cons_self _ _)
      have hab : a = b := by
        have hfin := digitChar_inj_lt10 ⟨a, ha⟩ ⟨b, hb⟩ h.1
        simpa using congrArg Fin.val hfin
      subst hab
      rw [ih t2 (fun d hd => h1 d (List.mem_cons_of_mem _ hd))
        (fun d hd => h2 d (List.mem_cons_of_mem _ hd)) h.2]

/-- The decimal rendering of naturals is injective. -/
theorem natToStr_inj : Function.Injective natToStr := by
  have core : ∀ a b : Nat, a ≠ 0 → b ≠ 0 → natToStr a = natToStr b →
      a = b := by
    intro a b ha hb h
    rw [natToStr, if_neg ha, natToStr, if_neg hb] at h
    have hdata : (Nat.digits 10 a).reverse.map Nat.digitChar
        = (Nat.digits 10 b).reverse.map Nat.digitChar :=
      congrArg String.data h
    have hrev := map_digitChar_inj _ _
      (fun d hd => Nat.digits_lt_base (by norm_num)
        (List.mem_reverse.mp hd))
      (fun d hd => Nat.digits_lt_base (by norm_num)
        (List.mem_reverse.mp hd)) hdata
    have hdig : Nat.digits 10 a = Nat.digits 10 b := by
      simpa using congrArg List.reverse hrev
    exact Nat.digits_inj_iff.mp hdig
  have zero_ne : ∀ b : Nat, b ≠ 0 → natToStr 0 ≠ natToStr b := by
    intro b hb h
    rw [natToStr, if_pos rfl, natToStr, if_neg hb] at h
    have hdata : (['0'] : List Char)
        = (Nat.digits 10 b).reverse.map Nat.digitChar :=
      congrArg String.data h
    have h0 : ([0] : List Nat).map Nat.digitChar
        = (Nat.digits 10 b).reverse.map Nat.digitChar := hdata
    have hrev := map_digitChar_inj [0] ((Nat.digits 10 b).reverse)
      (by intro d hd; simp at hd; omega)
      (fun d hd => Nat.digits_lt_base (by norm_num)
        (List.mem_reverse.mp hd)) h0
    have hdig : Nat.digits 10 b = [0] := by
      simpa using congrArg List.reverse hrev.symm
    have := Nat.ofDigits_digits 10 b
    rw [hdig] at this
    simp [Nat.ofDigits] at this
    exact hb this.symm
  intro a b h
  by_cases ha : a = 0 <;> by_cases hb : b = 0
  · rw [ha, hb]
  · exact absurd (ha ▸ h) (zero_ne b hb)
  · exact absurd (hb ▸ h.symm) (zero_ne a ha)
  · exact core a b ha hb h

/-- Slug candidates with distinct counters are distinct strings. -/
theorem slugCandidate_inj (base : String) :
    Function.Injective (slugCandidate base) := by
  intro k1 k2 h
  have hdata := congrArg String.data h
  simp only [slugCandidate, String.data_append, List.append_assoc] at hdata
  have hd2 : (natToStr k1).data = (natToStr k2).data :=
    List.append_cancel_left (List.append_cancel_left hdata)
  exact natToStr_inj (String.ext hd2)

/-- Pigeonhole: among the first length+1 slug candidates at least one is
not taken. -/
theorem exists_free_candidate (taken : List String) (base : String) :
    ∃ i, i < taken.length + 1 ∧ slugCandidate base (1 + i) ∉ taken := by
  by_contra hcon
  push_neg at hcon
  have hinj : Function.Injective (fun i : Nat => slugCandidate base (1 + i)) := by
    intro x y hxy
    have := slugCandidate_inj base hxy
    omega
  have hnd : ((List.range (taken.length + 1)).map
      (fun i => slugCandidate base (1 + i))).Nodup :=
    (List.nodup_range _).map hinj
  have hsub : ∀ x ∈ (List.range (taken.length + 1)).map
      (fun i => slugCandidate base (1 + i)), x ∈ taken := by
    intro x hx
    simp only [List.mem_map, List.mem_range] at hx
    obtain ⟨i, hi, rfl⟩ := hx
    exact hcon i hi
  have hlen : ((List.range (taken.length + 1)).map
      (fun i => slugCandidate base (1 + i))).length = taken.length + 1 := by
    simp
  have hcard := List.toFinset_card_of_nodup hnd
  have hsubf : ((List.range (taken.length + 1)).map
      (fun i => slugCandidate base (1 + i))).toFinset ⊆ taken.toFinset := by
    intro x hx
    rw [List.mem_toFinset] at hx ⊢
    exact hsub x hx
  have hle := Finset.card_le_card hsubf
  have htf := List.toFinset_card_le taken
  omega

/-- The collision loop returns an untaken slug whenever an untaken
candidate is within fuel reach. -/
theorem resolveSlugAux_not_mem (taken : List String) (base : String) :
    ∀ fuel counter,
    (∃ i, i < fuel ∧ slugCandidate base (counter + i) ∉ taken) →
    resolveSlugAux taken base counter fuel ∉ taken := by
  intro fuel
  induction fuel with
  | zero =>
    intro counter h
    obtain ⟨i, hi, -⟩ := h
    omega
  | succ fuel ih =>
    intro counter h
    obtain ⟨i, hi, hfree⟩ := h
    rw [resolveSlugAux]
    by_cases hc : taken.contains (slugCandidate base counter) = true
    · rw [if_pos hc]
      apply ih
      cases i with
      | zero =>
        exact absurd (by simpa using hc) (by simpa using hfree)
      | succ j =>
        refine ⟨j, by omega, ?_⟩
        have : counter + 1 + j = counter + (j + 1) := by omega
        rw [this]
        exact hfree
    · rw [if_neg hc]
      simpa using hc

/-- The slug chosen by the collision loop is never one of the taken
slugs. -/
theorem resolveSlug_not_mem (taken : List String) (base : String) :
    resolveSlug taken base ∉ taken := by
  rw [resolveSlug]
  by_cases hc : taken.contains base = true
  · rw [if_pos hc]
    apply resolveSlugAux_not_mem
    obtain ⟨i, hi, hfree⟩ := exists_free_candidate taken base
    exact ⟨i, hi, hfree⟩
  · rw [if_neg hc]
    simpa using hc

/-- C3 counterexample: on an empty database, a failure at the membership
commit (after the organization commit) leaves a committed state that
contains the new Organization and no Membership at all, so the operation
is not one atomic transaction and the committed state does contain a new
Organization lacking its OWNER Membership. -/
theorem c3_signup_not_atomic_counterexample :
    (create_user_with_organization ⟨[], [], []⟩ (some .membershipCommit)
        (fun _ => "acme") "e" "F" "L" (some "Acme") "pu" 10 20 30 40).1
      = .error .dbError
    ∧ (create_user_with_organization ⟨[], [], []⟩ (some .membershipCommit)
        (fun _ => "acme") "e" "F" "L" (some "Acme") "pu" 10 20 30 40).2.orgs.map
          (fun o => o.id) = [20]
    ∧ (create_user_with_organization ⟨[], [], []⟩ (some .membershipCommit)
        (fun _ => "acme") "e" "F" "L" (some "Acme") "pu" 10 20 30 40).2.memberships
      = [] :=
  ⟨rfl, rfl, rfl⟩

/-- C3 amended: create_user_with_organization commits the local User,
the Organization and the OWNER Membership in three separate commits
rather than one transaction.  On the success path the committed state
holds the new user, the new organization under a collision-resolved
slug distinct from every existing slug, and its ACTIVE OWNER
membership; but a failure at the membership commit leaves the committed
organization with no membership referring to it. -/
theorem c3_signup_stepwise_amended (db : AppDB)
    (slugifyFn : String → String) (email first_name last_name : String)
    (organization_name : Option String) (provider_uid : String)
    (newUserId newOrgId newMemId now : Nat) :
    ((create_user_with_organization db none slugifyFn email first_name
        last_name organization_name provider_uid newUserId newOrgId
        newMemId now).1 = .ok (newUserId, newOrgId)
      ∧ (∃ o ∈ (create_user_with_organization db none slugifyFn email
          first_name last_name organization_name provider_uid newUserId
          newOrgId newMemId now).2.orgs,
          o.id = newOrgId ∧ o.slug ∉ db.orgs.map (fun x => x.slug))
      ∧ (∃ m ∈ (create_user_with_organization db none slugifyFn email
          first_name last_name organization_name provider_uid newUserId
          newOrgId newMemId now).2.memberships,
          m.organization_id = newOrgId ∧ m.user_id = newUserId
            ∧ m.role = .OWNER ∧ m.status = .ACTIVE
            ∧ m.accepted_at = some now)
      ∧ (∃ usr ∈ (create_user_with_organization db none slugifyFn email
          first_name last_name organization_name provider_uid newUserId
          newOrgId newMemId now).2.users, usr.id = newUserId))
    ∧ ((∀ m ∈ db.memberships, m.organization_id ≠ newOrgId) →
        (∃ o ∈ (create_user_with_organization db (some .membershipCommit)
            slugifyFn email first_name last_name organization_name
            provider_uid newUserId newOrgId newMemId now).2.orgs,
            o.id = newOrgId)
        ∧ ∀ m ∈ (create_user_with_organization db (some .membershipCommit)
            slugifyFn email first_name last_name organization_name
            provider_uid newUserId newOrgId newMemId now).2.memberships,
            m.organization_id ≠ newOrgId) := by
  constructor
  · refine ⟨rfl, ?_, ?_, ?_⟩
    · exact ⟨_, List.mem_append_right _ (List.mem_singleton.mpr rfl),
        rfl, resolveSlug_not_mem _ _⟩
    · exact ⟨_, List.mem_append_right _ (List.mem_singleton.mpr rfl),
        rfl, rfl, rfl, rfl, rfl⟩
    · exact ⟨_, List.mem_append_right _ (List.mem_singleton.mpr rfl), rfl⟩
  · intro hfresh
    exact ⟨⟨_, List.mem_append_right _ (List.mem_singleton.mpr rfl), rfl⟩,
      hfresh⟩

/-- Witness for C3 amended: on the empty database, the success path
commits the OWNER membership, and a failure at the membership commit
leaves the committed organization with no membership. -/
theorem c3_signup_stepwise_amended_witness :
    (create_user_with_organization ⟨[], [], []⟩ none (fun _ => "acme")
        "e" "F" "L" (some "Acme") "pu" 10 20 30 40).1 = .ok (10, 20)
    ∧ (∃ m ∈ (create_user_with_organization ⟨[], [], []⟩ none
        (fun _ => "acme") "e" "F" "L" (some "Acme") "pu" 10 20 30
        40).2.memberships,
        m.organization_id = 20 ∧ m.user_id = 10 ∧ m.role = .OWNER
          ∧ m.status = .ACTIVE ∧ m.accepted_at = some 40)
    ∧ (∀ m ∈ (create_user_with_organization ⟨[], [], []⟩
        (some .membershipCommit) (fun _ => "acme") "e" "F" "L"
        (some "Acme") "pu" 10 20 30 40).2.memberships,
        m.organization_id ≠ 20) :=
  ⟨(c3_signup_stepwise_amended ⟨[], [], []⟩ (fun _ => "acme") "e" "F" "L"
      (some "Acme") "pu" 10 20 30 40).1.1,
    (c3_signup_stepwise_amended ⟨[], [], []⟩ (fun _ => "acme") "e" "F" "L"
      (some "Acme") "pu" 10 20 30 40).1.2.2.1,
    ((c3_signup_stepwise_amended ⟨[], [], []⟩ (fun _ => "acme") "e" "F" "L"
      (some "Acme") "pu" 10 20 30 40).2 (by intro m hm; cases hm)).2⟩

end SaasCore
